import Mathlib

/-!
Verification of the AIPoliDoc instruction pipeline.

This file gives a shallow embedding of the core of the repository:

* `src/core/ai_connector.py`  — request construction, transport result
  handling and `parse_response` (payload extraction + validation);
* `src/core/doc_processor.py` — `apply_formatting`, `_process_element`,
  `_apply_font`, `_apply_paragraph_format` and the named font-size table;
* `src/utils/font_manager.py` — the alias table, `is_font_available`,
  `get_available_font`, `add_font_mapping`.

Python JSON values are embedded as `JValue` with rational numbers standing
for Python's numeric values (all numbers the pipeline compares or clamps
are exact decimals).  The external JSON decoder (`json.loads`) and the
HTTP transport are collaborator boundaries and appear as parameters.
A few helpers of this repository are imported by the core but are not part
of the provided sources (`file_utils`, `FontManager.get_font_for_document`);
these are modelled from the specification and are marked as such.
-/

/-- Embedding of a decoded Python/JSON value.  Objects are association
lists; duplicate keys behave like repeated Python dict assignment (the
last binding wins, see `lookupLast`). -/
inductive JValue where
  | null
  | bool (b : Bool)
  | num (q : ℚ)
  | str (s : String)
  | arr (xs : List JValue)
  | obj (kvs : List (String × JValue))

/-- Last-binding-wins association lookup: the observable behaviour of a
Python dict built by successive assignments. -/
def lookupLast (kvs : List (String × JValue)) (k : String) : Option JValue :=
  kvs.foldl (fun acc p => if p.1 = k then some p.2 else acc) none

/-- Python `d.get(key, default)` on an embedded object. -/
def pyGetD (v : JValue) (k : String) (default : JValue) : JValue :=
  match v with
  | JValue.obj kvs =>
    match lookupLast kvs k with
    | some w => w
    | none => default
  | _ => default

/-- Python `key in d` on an embedded object. -/
def hasKey (v : JValue) (k : String) : Bool :=
  match v with
  | JValue.obj kvs => kvs.any (fun p => p.1 == k)
  | _ => false

/-- Is the value an embedded `dict`? (Python `isinstance(v, dict)`.) -/
def isObj : JValue → Bool
  | JValue.obj _ => true
  | _ => false

/-- Is the value an embedded `list`? (Python `isinstance(v, list)`.) -/
def isArr : JValue → Bool
  | JValue.arr _ => true
  | _ => false

/-- Is the value an embedded `str`? (Python `isinstance(v, str)`.) -/
def isStr : JValue → Bool
  | JValue.str _ => true
  | _ => false

/-- Python `isinstance(v, (int, float))` together with the numeric value
used in arithmetic and comparisons.  Python booleans are integers
(`True == 1`, `False == 0`), so they pass the `isinstance` check. -/
def jNum : JValue → Option ℚ
  | JValue.num q => some q
  | JValue.bool b => some (if b then 1 else 0)
  | _ => none

/-- Python slicing `v[:50]` succeeds only on sequence values; on the
values reachable here that means strings and lists. -/
def sliceable : JValue → Bool
  | JValue.str _ => true
  | JValue.arr _ => true
  | _ => false

/-- First index of a character in a character list. -/
def charIndex : List Char → Char → Option Nat
  | [], _ => none
  | x :: xs, c => if x = c then some 0 else (charIndex xs c).map (· + 1)

/-- Python `s.find(c)`: index of the first occurrence, `-1` if absent. -/
def pyFind (s : String) (c : Char) : Int :=
  match charIndex s.data c with
  | some n => (n : Int)
  | none => -1

/-- Python `s.rfind(c)`: index of the last occurrence, `-1` if absent. -/
def pyRfind (s : String) (c : Char) : Int :=
  match charIndex s.data.reverse c with
  | some n => (s.data.length : Int) - 1 - n
  | none => -1

/-- Python `s[a:b]` for non-negative bounds. -/
def pySlice (s : String) (a b : Nat) : String :=
  String.mk ((s.data.drop a).take (b - a))

/-- Python `s[:n]` for non-negative `n`. -/
def strTake (s : String) (n : Nat) : String :=
  String.mk (s.data.take n)

/-! ### AI connector (`src/core/ai_connector.py`) -/

/-- The credential triple read by `AIConnector.__init__`. -/
structure ApiConfig where
  api_url : String
  api_key : String
  model : String

/-- The data of one HTTP POST issued through `requests.post`: URL, bearer
key, the message payload and the `timeout` argument in seconds. -/
structure ApiRequest where
  url : String
  key : String
  model : String
  user_message : String
  stream : Bool
  timeout : Nat

/-- `AIConnector._send_test_request`: the fixed pre-flight request used to
validate credentials. -/
def send_test_request (cfg : ApiConfig) : ApiRequest :=
  { url := cfg.api_url
    key := cfg.api_key
    model := cfg.model
    user_message := "Hello!"
    stream := false
    timeout := 10 }

/-- The request built by `AIConnector.send_request` for a full prompt. -/
def full_request (cfg : ApiConfig) (prompt : String) : ApiRequest :=
  { url := cfg.api_url
    key := cfg.api_key
    model := cfg.model
    user_message := prompt
    stream := false
    timeout := 60 }

/-- Outcome of one transport call: a response with status code, raw body
text and decoded JSON body, or a raised exception (timeout, connection
failure, ...) carrying its message. -/
inductive HttpOutcome where
  | resp (status : Nat) (text : String) (json : JValue)
  | exc (msg : String)

/-- `AIConnector.validate_config`, given the transport outcome of the
pre-flight request.  Always returns a `(success, message)` pair. -/
def validate_config (cfg : ApiConfig) (outcome : HttpOutcome) : Bool × String :=
  if cfg.api_url = "" then (false, "API URL不能为空")
  else if cfg.api_key = "" then (false, "API Key不能为空")
  else if cfg.model = "" then (false, "模型名称不能为空")
  else
    match outcome with
    | HttpOutcome.resp status text _ =>
      if status = 200 then (true, "API配置验证成功")
      else (false, "API请求失败，状态码: " ++ toString status ++ ", 响应: " ++ text)
    | HttpOutcome.exc m => (false, "API请求异常: " ++ m)

/-- `AIConnector.send_request`, given the transport outcome.  Always
returns a `(success, payload-or-message)` pair; on HTTP 200 the decoded
JSON body is returned, otherwise an error string carrying the status code
and response body (or the exception message). -/
def send_request (outcome : HttpOutcome) : Bool × (String ⊕ JValue) :=
  match outcome with
  | HttpOutcome.resp status text json =>
    if status = 200 then (true, Sum.inr json)
    else (false, Sum.inl ("AI API请求失败，状态码: " ++ toString status ++ ", 响应: " ++ text))
  | HttpOutcome.exc m => (false, Sum.inl ("AI API请求异常: " ++ m))

/-- The distinct return sites of `AIConnector.parse_response`, keeping the
data each error message carries (element index, truncated slice). -/
inductive ParseResult where
  | emptyContent
  | noPayload
  | malformed (sliceTrunc : String)
  | notDict
  | wrongShape
  | elemNotDict (i : Nat)
  | missingContent (i : Nat)
  | missingFormat (i : Nat)
  | ok (instructions : JValue)

/-- The element loop of `parse_response`: checks, in order and stopping at
the first failure, that each element is a dict and has the `content` and
`format` keys.  `none` means every element passed. -/
def validateElements : List JValue → Nat → Option ParseResult
  | [], _ => none
  | e :: rest, i =>
    if isObj e then
      if hasKey e "content" then
        if hasKey e "format" then validateElements rest (i + 1)
        else some (ParseResult.missingFormat i)
      else some (ParseResult.missingContent i)
    else some (ParseResult.elemNotDict i)

/-- The shape validation `parse_response` performs on a successfully
decoded payload: a non-dict payload raises at `.get` (caught by the outer
handler), a non-list `elements` value is the wrong shape, otherwise the
element loop decides. -/
def decodedStep (payload : JValue) : ParseResult :=
  if isObj payload then
    match pyGetD payload "elements" (JValue.arr []) with
    | JValue.arr es =>
      match validateElements es 0 with
      | some err => err
      | none => ParseResult.ok payload
    | _ => ParseResult.wrongShape
  else ParseResult.notDict

/-- The outcome of running the element loop on an `elements` list: the
first error found, or success carrying the whole payload. -/
def validationOutcome (payload : JValue) (es : List JValue) : ParseResult :=
  match validateElements es 0 with
  | some err => err
  | none => ParseResult.ok payload

/-- `AIConnector.parse_response` on the extracted message content, with
`json.loads` as a collaborator parameter (`none` models a raised
`JSONDecodeError`).  Empty content is rejected first; then the substring
from the first opening brace to the last closing brace (when both exist)
is decoded; then the payload shape is validated. -/
def parse_response (jsonLoads : String → Option JValue) (content : String) : ParseResult :=
  if content = "" then ParseResult.emptyContent
  else
    let json_start := pyFind content '\x7b'
    let json_end := pyRfind content '\x7d'
    if 0 ≤ json_start ∧ 0 ≤ json_end then
      let json_content := pySlice content json_start.toNat (json_end.toNat + 1)
      match jsonLoads json_content with
      | none => ParseResult.malformed (strTake json_content 100)
      | some payload => decodedStep payload
    else ParseResult.noPayload

/-- All three checks the element loop applies to one element. -/
def goodElem (e : JValue) : Bool :=
  isObj e && hasKey e "content" && hasKey e "format"

/-- The error the element loop reports for the first offending element:
the checks run in source order (dict, then `content`, then `format`). -/
def elementError (e : JValue) (i : Nat) : ParseResult :=
  if isObj e = false then ParseResult.elemNotDict i
  else if hasKey e "content" = false then ParseResult.missingContent i
  else ParseResult.missingFormat i

/-! ### Font manager (`src/utils/font_manager.py`) -/

/-- Last-binding-wins lookup in a string-to-string table (Python dict
observable behaviour). -/
def lookupStr (m : List (String × String)) (k : String) : Option String :=
  m.foldl (fun acc p => if p.1 = k then some p.2 else acc) none

/-- Python dict assignment `m[k] = v` on the association-list model:
appending preserves the last-binding-wins lookup. -/
def dictSet (m : List (String × String)) (k v : String) : List (String × String) :=
  m ++ [(k, v)]

/-- The observable state of the `FontManager` singleton: the enumerated
installed-font inventory and the bidirectional alias table. -/
structure FontManagerState where
  system_fonts : List String
  font_mapping : List (String × String)
  reverse_mapping : List (String × String)

/-- The static seed alias table built by `FontManager.load_font_mapping`. -/
def base_font_mapping : List (String × String) :=
  [("宋体", "SimSun"),
   ("黑体", "SimHei"),
   ("楷体", "KaiTi"),
   ("仿宋", "FangSong"),
   ("微软雅黑", "Microsoft YaHei UI"),
   ("微软雅黑 UI", "Microsoft YaHei UI"),
   ("华文宋体", "STSong"),
   ("华文黑体", "STHeiti"),
   ("华文楷体", "STKaiti"),
   ("华文仿宋", "STFangsong"),
   ("Times New Roman", "Times New Roman"),
   ("Arial", "Arial"),
   ("Calibri", "Calibri")]

/-- The dict comprehension building `reverse_mapping` from `font_mapping`
(later entries overwrite earlier ones on duplicate values). -/
def reverse_of (m : List (String × String)) : List (String × String) :=
  m.foldl (fun acc p => dictSet acc p.2 p.1) []

/-- `FontManager.is_font_available`: a font counts as available when its
name is in the inventory, or its alias exists, is truthy (non-empty) and
is in the inventory. -/
def is_font_available (fm : FontManagerState) (font_name : String) : Bool :=
  fm.system_fonts.contains font_name ||
    (match lookupStr fm.font_mapping font_name with
     | some m => decide (m ≠ "") && fm.system_fonts.contains m
     | none => false)

/-- `FontManager.get_available_font`: the requested name when available
(directly or via its alias), else the installed alias, else the fallback
when installed, else the first inventory entry, else the literal
`"Arial"` on an empty inventory. -/
def get_available_font (fm : FontManagerState) (font_name fallback : String) : String :=
  if is_font_available fm font_name then font_name
  else
    match lookupStr fm.font_mapping font_name with
    | some m =>
      if decide (m ≠ "") && fm.system_fonts.contains m then m
      else if fm.system_fonts.contains fallback then fallback
      else
        match fm.system_fonts with
        | [] => "Arial"
        | f :: _ => f
    | none =>
      if fm.system_fonts.contains fallback then fallback
      else
        match fm.system_fonts with
        | [] => "Arial"
        | f :: _ => f

/-- `FontManager.add_font_mapping`: the pair is inserted into both
in-memory tables first; persisting the table to the config file is a
collaborator step whose success is the parameter `writeOk`, and its
failure is reported as `false` without rolling the tables back. -/
def add_font_mapping (fm : FontManagerState) (chinese_name english_name : String)
    (writeOk : Bool) : FontManagerState × Bool :=
  let fm' : FontManagerState :=
    { fm with
      font_mapping := dictSet fm.font_mapping chinese_name english_name
      reverse_mapping := dictSet fm.reverse_mapping english_name chinese_name }
  (fm', writeOk)

/-- Modelled from the spec: `FontManager.get_font_for_document` is called
at `doc_processor.py:238` (with the in-source comment that it returns the
mapped name without an availability check) but its definition is not among
the provided sources.  Per spec section 4.7 the declared family is resolved
through the alias table to the single name used for both the default and
the east-asian font slots. -/
def get_font_for_document (fm : FontManagerState) (font_name : String) : String :=
  match lookupStr fm.font_mapping font_name with
  | some m => m
  | none => font_name

/-! ### Path helpers used by the renderer

`generate_output_filename` and `backup_file` live in the repository's
`utils/file_utils.py`, which is imported by `doc_processor.py` but is not
among the provided sources; they are modelled from the spec below.  The
in-source fallback branch of `apply_formatting` (doc_processor.py:146-150)
computes the same paths with Python `str.replace`, embedded here. -/

/-- Python `str.replace` worker on character lists: scan left to right,
replacing every non-overlapping occurrence of `pat` by `rep`.  The fuel is
the length of the scanned list (each step consumes at least one character
when `pat` is non-empty). -/
def pyReplaceAux (pat rep : List Char) : Nat → List Char → List Char
  | _, [] => []
  | 0, s => s
  | fuel + 1, c :: rest =>
    if pat ≠ [] ∧ pat.isPrefixOf (c :: rest) then
      rep ++ pyReplaceAux pat rep fuel ((c :: rest).drop pat.length)
    else c :: pyReplaceAux pat rep fuel rest

/-- Python `s.replace(pat, rep)` (all occurrences) for non-empty `pat`. -/
def pyReplace (s pat rep : String) : String :=
  String.mk (pyReplaceAux pat.data rep.data s.data.length s.data)

/-- Python `s.endswith(suffix)`. -/
def strEndsWith (s suffix : String) : Bool :=
  suffix.data.isSuffixOf s.data

/-- The maximal run of non-separator characters at the end of a
character list. -/
def lastRun (l : List Char) : List Char :=
  (l.reverse.takeWhile (fun c => c != '/')).reverse

/-- The maximal run of non-separator characters at the end of a path:
`os.path.basename` for paths whose directory part ends at the last
slash. -/
def basename (s : String) : String :=
  String.mk (lastRun s.data)

/-- Modelled from the spec: `generate_output_filename` of the repository's
`utils/file_utils.py` (imported at doc_processor.py:14, not among the
provided sources).  Per spec section 4.7 the output path derives from the
source filename with a fixed suffix, inside the source directory, or
inside the override directory when one is supplied and is a directory
(`custom = some dir`); the in-source fallback at doc_processor.py:146-150
computes the same paths. -/
def generate_output_filename (input_file : String) (custom : Option String) : String :=
  match custom with
  | some dir => dir ++ "/" ++ pyReplace (basename input_file) ".docx" "_已排版.docx"
  | none => pyReplace input_file ".docx" "_已排版.docx"

/-- Modelled from the spec: `backup_file` of the repository's
`utils/file_utils.py` (the file-backup-before-overwrite utility, declared
out of scope by section 1 and specified only as a step that copies the
source aside before any output is produced).  The returned string is the
path the backup copy is written to. -/
def backup_file (input_file : String) : String :=
  input_file ++ ".bak"

/-! ### Document renderer (`src/core/doc_processor.py`) -/

/-- `DocProcessor.font_size_mapping`: the named-size table, in points. -/
def font_size_mapping : List (String × ℚ) :=
  [("小二", 18),
   ("三号", 16),
   ("小三", 15),
   ("四号", 14),
   ("小四", 12),
   ("五号", mkRat 21 2),
   ("小五", 9),
   ("六号", mkRat 15 2)]

/-- Lookup in the named-size table with the default of
`self.font_size_mapping.get(font_size, Pt(10.5))`. -/
def lookupFontSize (s : String) : ℚ :=
  (font_size_mapping.foldl (fun acc p => if p.1 = s then some p.2 else acc) none).getD (mkRat 21 2)

/-- The value assigned to `run.font.size`: a point length obtained from
the named-size table for string sizes, or the raw value used as-is for
everything else. -/
inductive RunSize where
  | pt (points : ℚ)
  | raw (v : JValue)

/-- The run-level attributes the renderer sets. -/
structure Run where
  text : String
  font_name : Option String := none
  east_asia_font : Option String := none
  size : Option RunSize := none
  bold : Option JValue := none
  italic : Option JValue := none
  underline : Option JValue := none

/-- `WD_LINE_SPACING` members used by `_apply_paragraph_format`. -/
inductive LineSpacingRule where
  | single
  | onePointFive
  | double
  | exactlyRule

/-- `WD_PARAGRAPH_ALIGNMENT` members used by `_apply_paragraph_format`. -/
inductive ParaAlignment where
  | left
  | center
  | right
  | justify

/-- The paragraph-level attributes the renderer sets. -/
structure Paragraph where
  runs : List Run
  alignment : Option ParaAlignment := none
  line_spacing_rule : Option LineSpacingRule := none
  line_spacing_pt : Option ℚ := none
  first_line_indent : Option ℚ := none
  space_before : Option ℚ := none
  space_after : Option ℚ := none

/-- A fresh run holding the element's content text. -/
def mkRun (text : String) : Run :=
  { text := text }

/-- A fresh paragraph as returned by `doc.add_paragraph()` plus its runs. -/
def mkParagraph (runs : List Run) : Paragraph :=
  { runs := runs }

/-- `DocProcessor._apply_font`.  The whole body sits in one `try`; the
resolution of the declared family is modelled only for string names (the
missing `get_font_for_document` is specified on font labels), so a
non-string `font` value fails inside the `try` and leaves the run as it
was.  String sizes go through the named-size table with a 10.5pt default;
any other size value is used as-is. -/
def applyFont (fm : FontManagerState) (run : Run) (format_info : JValue) : Run :=
  match pyGetD format_info "font" (JValue.str "宋体") with
  | JValue.str font_name =>
    let document_font := get_font_for_document fm font_name
    let run := { run with font_name := some document_font, east_asia_font := some document_font }
    let size : RunSize :=
      match pyGetD format_info "size" (JValue.str "五号") with
      | JValue.str s => RunSize.pt (lookupFontSize s)
      | v => RunSize.raw v
    { run with
      size := some size
      bold := some (pyGetD format_info "bold" (JValue.bool false))
      italic := some (pyGetD format_info "italic" (JValue.bool false))
      underline := some (pyGetD format_info "underline" (JValue.bool false)) }
  | _ => run

/-- The line-spacing block of `_apply_paragraph_format`: non-numeric values
are ignored, out-of-range numerics are replaced by the default 1.5, the
three enumerated multiples map to enumerated rules and anything else is
"exactly" that many points. -/
def applyLineSpacing (para : Paragraph) (format_info : JValue) : Paragraph :=
  match jNum (pyGetD format_info "line_spacing" (JValue.num (mkRat 3 2))) with
  | some q0 =>
    let q := if q0 > 36 ∨ q0 < mkRat 1 2 then mkRat 3 2 else q0
    if q = 1 then { para with line_spacing_rule := some LineSpacingRule.single }
    else if q = mkRat 3 2 then { para with line_spacing_rule := some LineSpacingRule.onePointFive }
    else if q = 2 then { para with line_spacing_rule := some LineSpacingRule.double }
    else { para with line_spacing_rule := some LineSpacingRule.exactlyRule,
                     line_spacing_pt := some q }
  | none => para

/-- The alignment block of `_apply_paragraph_format`: three recognized
keywords, every other value (including non-strings) falls to left. -/
def applyAlignment (para : Paragraph) (format_info : JValue) : Paragraph :=
  let v := pyGetD format_info "alignment" (JValue.str "left")
  let a :=
    match v with
    | JValue.str s =>
      if s = "center" then ParaAlignment.center
      else if s = "right" then ParaAlignment.right
      else if s = "justify" then ParaAlignment.justify
      else ParaAlignment.left
    | _ => ParaAlignment.left
  { para with alignment := some a }

/-- The first-line-indent block of `_apply_paragraph_format`: an explicit
numeric value is used verbatim; a missing or null value triggers the fixed
21pt body indent when the element type is the body role; a present
non-numeric value only logs a warning. -/
def applyFirstLineIndent (para : Paragraph) (format_info : JValue)
    (element_type : JValue) : Paragraph :=
  let v := pyGetD format_info "first_line_indent" JValue.null
  match v with
  | JValue.null =>
    match element_type with
    | JValue.str t =>
      if t = "正文" then { para with first_line_indent := some 21 } else para
    | _ => para
  | _ =>
    match jNum v with
    | some q => { para with first_line_indent := some q }
    | none => para

/-- The before-spacing block of `_apply_paragraph_format`. -/
def applySpaceBefore (para : Paragraph) (format_info : JValue) : Paragraph :=
  match jNum (pyGetD format_info "before_spacing" JValue.null) with
  | some q => { para with space_before := some q }
  | none => para

/-- The after-spacing block of `_apply_paragraph_format`. -/
def applySpaceAfter (para : Paragraph) (format_info : JValue) : Paragraph :=
  match jNum (pyGetD format_info "after_spacing" JValue.null) with
  | some q => { para with space_after := some q }
  | none => para

/-- `DocProcessor._apply_paragraph_format`: the five independent blocks in
source order (each sits in its own `try`). -/
def applyParagraphFormat (para : Paragraph) (format_info : JValue)
    (element_type : JValue) : Paragraph :=
  applySpaceAfter
    (applySpaceBefore
      (applyFirstLineIndent
        (applyAlignment (applyLineSpacing para format_info) format_info)
        format_info element_type)
      format_info)
    format_info

/-- The output document: the ordered paragraphs appended so far. -/
structure OutputDoc where
  paragraphs : List Paragraph

/-- The empty document created by `Document()`. -/
def emptyDoc : OutputDoc :=
  { paragraphs := [] }

/-- The paragraph `_process_element` appends for one element, or `none`
when the element adds no paragraph: a non-dict element returns early, and
a non-sliceable `content` value raises at the `content[:50]` log line
before `doc.add_paragraph()` (the exception is caught by the method's own
handler).  A sliceable but non-string `content` raises when the run text
is set, after the paragraph was already appended, leaving a bare
paragraph. -/
def renderElement (fm : FontManagerState) (element : JValue) : Option Paragraph :=
  if isObj element then
    let content := pyGetD element "content" (JValue.str "")
    if sliceable content then
      let element_type := pyGetD element "type" (JValue.str "正文")
      let format0 := pyGetD element "format" (JValue.obj [])
      let format_info := if isObj format0 then format0 else JValue.obj []
      match content with
      | JValue.str s =>
        let run := applyFont fm (mkRun s) format_info
        some (applyParagraphFormat (mkParagraph [run]) format_info element_type)
      | _ => some (mkParagraph [])
    else none
  else none

/-- `DocProcessor._process_element`: appends the rendered paragraph, if
any, to the output document; every exception inside is caught. -/
def process_element (fm : FontManagerState) (doc : OutputDoc) (element : JValue) : OutputDoc :=
  match renderElement fm element with
  | some p => { paragraphs := doc.paragraphs ++ [p] }
  | none => doc

/-- The state of `DocProcessor` that `apply_formatting` reads. -/
structure DocProcState where
  document_loaded : Bool
  input_file : String

/-- What one run of `apply_formatting` produces: the returned success
flag, the output document built in memory, and the list of file paths the
run writes to (the backup copy, then the saved output). -/
structure ApplyResult where
  success : Bool
  doc : OutputDoc
  writes : List String

/-- `DocProcessor.apply_formatting`.  Guards (document loaded, dict
instructions, list elements) come first and fail without touching any
file; then the source is backed up, a new document is constructed
(collaborator success flag `docCtorOk`), every element is processed with
per-element isolation, and the result is saved to the computed output
path (collaborator success flag `saveOk`). -/
def apply_formatting (fm : FontManagerState) (st : DocProcState)
    (formatting_instructions : JValue) (custom_save_path : Option String)
    (docCtorOk saveOk : Bool) : ApplyResult :=
  if st.document_loaded = false then { success := false, doc := emptyDoc, writes := [] }
  else if isObj formatting_instructions = false then
    { success := false, doc := emptyDoc, writes := [] }
  else
    match pyGetD formatting_instructions "elements" (JValue.arr []) with
    | JValue.arr elements =>
      let backupWrites := [backup_file st.input_file]
      if docCtorOk = false then
        { success := false, doc := emptyDoc, writes := backupWrites }
      else
        let new_doc := elements.foldl (process_element fm) emptyDoc
        let output_file := generate_output_filename st.input_file custom_save_path
        { success := saveOk, doc := new_doc, writes := backupWrites ++ [output_file] }
    | _ => { success := false, doc := emptyDoc, writes := [] }

/-- The visible text of a paragraph: its runs' texts in order. -/
def paraText (p : Paragraph) : String :=
  p.runs.foldl (fun acc r => acc ++ r.text) ""

/-- The content string an element contributes as paragraph text
(`element.get('content', '')` when it is a string). -/
def contentString (element : JValue) : String :=
  match pyGetD element "content" (JValue.str "") with
  | JValue.str s => s
  | _ => ""

/-! ### Concrete states and inputs used by the closed theorems below -/

/-- A font-manager state holding only the seed alias table (an
artificially empty installed-font inventory). -/
def seedFontState : FontManagerState :=
  { system_fonts := []
    font_mapping := base_font_mapping
    reverse_mapping := reverse_of base_font_mapping }

/-- A font-manager state whose inventory contains a single empty-string
entry, as the shell-based enumeration fallbacks can produce. -/
def emptyNameFontState : FontManagerState :=
  { system_fonts := [""]
    font_mapping := base_font_mapping
    reverse_mapping := reverse_of base_font_mapping }

/-- A decoder standing for `json.loads` that rejects every string, as the
real decoder does on the empty slice. -/
def rejectAll : String → Option JValue :=
  fun _ => none

/-- The spec's worked example, already decoded: a title element and a body
element. -/
def c1_title_element : JValue :=
  JValue.obj
    [("type", JValue.str "标题"),
     ("content", JValue.str "标题文字"),
     ("format", JValue.obj
       [("font", JValue.str "黑体"),
        ("size", JValue.str "小二"),
        ("alignment", JValue.str "center")])]

/-- The body element of the spec's worked example. -/
def c1_body_element : JValue :=
  JValue.obj
    [("type", JValue.str "正文"),
     ("content", JValue.str "这是正文第一段。"),
     ("format", JValue.obj
       [("font", JValue.str "宋体"),
        ("size", JValue.str "五号"),
        ("line_spacing", JValue.num (mkRat 3 2))])]

/-- The decoded model response of the spec's worked example. -/
def c1_model_response : JValue :=
  JValue.obj [("elements", JValue.arr [c1_title_element, c1_body_element])]

/-- The outcome of running `apply_formatting` on the worked example with a
loaded source document and successful collaborator steps. -/
def c1_result : ApplyResult :=
  apply_formatting seedFontState
    { document_loaded := true, input_file := "input.docx" }
    c1_model_response none true true

/-- A decoded payload whose single element carries the `content` and
`format` keys with null values. -/
def nullFieldsPayload : JValue :=
  JValue.obj
    [("elements", JValue.arr
      [JValue.obj [("content", JValue.null), ("format", JValue.null)]])]

/-- A decoder that decodes the two-character slice of braces to
`nullFieldsPayload`. -/
def nullFieldsDecoder : String → Option JValue :=
  fun s => if s = "\x7b\x7d" then some nullFieldsPayload else none

/-- A decoder that decodes one three-character slice to a payload whose
`elements` field is a string. -/
def strElementsDecoder : String → Option JValue :=
  fun s => if s = "\x7bw\x7d" then some (JValue.obj [("elements", JValue.str "x")]) else none

/-! ### Helper lemmas -/

theorem lookupStr_dictSet (m : List (String × String)) (k v : String) :
    lookupStr (dictSet m k v) k = some v := by
  simp [lookupStr, dictSet, List.foldl_append]

theorem str_data_append (s t : String) : (s ++ t).data = s.data ++ t.data := by
  cases s
  cases t
  rfl

theorem str_nil_append (s : String) : "" ++ s = s := by
  cases s
  show String.mk ([] ++ _) = _
  rfl

/-! ### C10: `add_font_mapping` is not atomic on failure -/

/-- C10: for every pair, `add_font_mapping` inserts the pair into the
in-memory `font_mapping` and `reverse_mapping` before attempting the
config-file write; when that write fails it returns `false`, yet both
in-memory tables still contain the new entry. -/
theorem add_font_mapping_not_atomic (fm : FontManagerState) (cn en : String) :
    (add_font_mapping fm cn en false).2 = false ∧
    lookupStr (add_font_mapping fm cn en false).1.font_mapping cn = some en ∧
    lookupStr (add_font_mapping fm cn en false).1.reverse_mapping en = some cn := by
  refine ⟨rfl, ?_, ?_⟩
  · exact lookupStr_dictSet fm.font_mapping cn en
  · exact lookupStr_dictSet fm.reverse_mapping en cn

/-! ### C9: request timeouts and transport result contract -/

/-- C9 counterexample: the pre-flight request is sent with a timeout of 10
seconds, which is not a single-digit number of seconds. -/
theorem preflight_timeout_is_ten :
    (send_test_request { api_url := "u", api_key := "k", model := "m" }).timeout = 10 ∧
    ¬ (send_test_request { api_url := "u", api_key := "k", model := "m" }).timeout ≤ 9 := by
  exact ⟨rfl, by decide⟩

/-- C9 (amended): the pre-flight request uses a 10-second timeout and the
full-document request a 60-second one; for every transport outcome both
`validate_config` and `send_request` return a pair instead of raising,
with non-200 reported as failure carrying the status code and body. -/
theorem request_contract (cfg : ApiConfig) (prompt : String) (status : Nat)
    (text : String) (json : JValue) (m : String) :
    (send_test_request cfg).timeout = 10 ∧
    (full_request cfg prompt).timeout = 60 ∧
    (cfg.api_url ≠ "" → cfg.api_key ≠ "" → cfg.model ≠ "" →
      validate_config cfg (HttpOutcome.resp 200 text json) = (true, "API配置验证成功") ∧
      (status ≠ 200 → validate_config cfg (HttpOutcome.resp status text json) =
        (false, "API请求失败，状态码: " ++ toString status ++ ", 响应: " ++ text)) ∧
      validate_config cfg (HttpOutcome.exc m) = (false, "API请求异常: " ++ m)) ∧
    send_request (HttpOutcome.resp 200 text json) = (true, Sum.inr json) ∧
    (status ≠ 200 → send_request (HttpOutcome.resp status text json) =
      (false, Sum.inl ("AI API请求失败，状态码: " ++ toString status ++ ", 响应: " ++ text))) ∧
    send_request (HttpOutcome.exc m) = (false, Sum.inl ("AI API请求异常: " ++ m)) := by
  refine ⟨rfl, rfl, ?_, ?_, ?_, rfl⟩
  · intro h1 h2 h3
    refine ⟨?_, ?_, ?_⟩
    · simp [validate_config, h1, h2, h3]
    · intro hs
      simp [validate_config, h1, h2, h3, hs]
    · simp [validate_config, h1, h2, h3]
  · simp [send_request]
  · intro hs
    simp [send_request, hs]

/-- C9 witness: the amended contract at a concrete configuration and a
concrete 500 response. -/
theorem request_contract_witness :
    send_request (HttpOutcome.resp 500 "err" JValue.null) =
      (false, Sum.inl ("AI API请求失败，状态码: " ++ toString 500 ++ ", 响应: " ++ "err")) ∧
    (send_test_request { api_url := "u", api_key := "k", model := "m" }).timeout = 10 := by
  have h := request_contract { api_url := "u", api_key := "k", model := "m" }
    "p" 500 "err" JValue.null "boom"
  exact ⟨h.2.2.2.2.1 (by decide), h.1⟩

/-! ### C7: font resolution fallback chain -/

/-- C7 counterexample: with an installed-font inventory whose only entry
is the empty string, resolving "宋体" returns the empty string — the
non-empty guarantee does not hold for every state of the installed list. -/
theorem get_available_font_empty_result :
    get_available_font emptyNameFontState "宋体" "SimSun" = "" := by
  rfl

/-- C7 (amended): `get_available_font` is total and follows the chain:
the requested name whenever it is available directly or via an installed
alias, else the fallback when installed, else the first inventory entry,
else the literal `"Arial"`; the result is non-empty provided the
requested name, the fallback and every inventory entry are non-empty. -/
theorem get_available_font_chain (fm : FontManagerState) (name fallback : String) :
    (name ≠ "" → fallback ≠ "" → (∀ f ∈ fm.system_fonts, f ≠ "") →
      get_available_font fm name fallback ≠ "") ∧
    (is_font_available fm name = true → get_available_font fm name fallback = name) ∧
    (is_font_available fm name = false → fm.system_fonts.contains fallback = true →
      get_available_font fm name fallback = fallback) ∧
    (is_font_available fm name = false → fm.system_fonts.contains fallback = false →
      ∀ f rest, fm.system_fonts = f :: rest → get_available_font fm name fallback = f) ∧
    (is_font_available fm name = false → fm.system_fonts = [] →
      get_available_font fm name fallback = "Arial") := by
  refine ⟨?_, ?_, ?_, ?_, ?_⟩
  · intro hname hfb hall
    unfold get_available_font
    split
    · exact hname
    · split
      · split
        · next m hm hcond =>
          have := hcond
          simp only [Bool.and_eq_true, decide_eq_true_eq] at this
          exact this.1
        · split
          · exact hfb
          · split
            · decide
            · next f rest hfr =>
              exact hall f (by rw [hfr]; exact List.mem_cons_self f rest)
      · split
        · exact hfb
        · split
          · decide
          · next f rest hfr =>
            exact hall f (by rw [hfr]; exact List.mem_cons_self f rest)
  · intro h
    unfold get_available_font
    simp [h]
  · intro h hfb
    have hmap : ∀ m, lookupStr fm.font_mapping name = some m →
        (decide (m ≠ "") && fm.system_fonts.contains m) = false := by
      intro m hm
      simp only [is_font_available, hm, Bool.or_eq_false_iff] at h
      exact h.2
    unfold get_available_font
    rw [if_neg (by simp [h])]
    split
    · next m hm =>
      rw [if_neg (by rw [hmap m hm]; exact Bool.false_ne_true)]
      rw [if_pos hfb]
    · rw [if_pos hfb]
  · intro h hfb f rest hfr
    have hmap : ∀ m, lookupStr fm.font_mapping name = some m →
        (decide (m ≠ "") && fm.system_fonts.contains m) = false := by
      intro m hm
      simp only [is_font_available, hm, Bool.or_eq_false_iff] at h
      exact h.2
    unfold get_available_font
    rw [if_neg (by simp [h])]
    split
    · next m hm =>
      rw [if_neg (by rw [hmap m hm]; exact Bool.false_ne_true)]
      rw [if_neg (by rw [hfb]; exact Bool.false_ne_true)]
      rw [hfr]
    · rw [if_neg (by rw [hfb]; exact Bool.false_ne_true)]
      rw [hfr]
  · intro h hnil
    have hmap : ∀ m, lookupStr fm.font_mapping name = some m →
        (decide (m ≠ "") && fm.system_fonts.contains m) = false := by
      intro m hm
      simp only [is_font_available, hm, Bool.or_eq_false_iff] at h
      exact h.2
    unfold get_available_font
    rw [if_neg (by simp [h])]
    split
    · next m hm =>
      rw [if_neg (by rw [hmap m hm]; exact Bool.false_ne_true)]
      rw [if_neg (by rw [hnil]; exact Bool.false_ne_true)]
      rw [hnil]
    · rw [if_neg (by rw [hnil]; exact Bool.false_ne_true)]
      rw [hnil]

/-- C7 witness: the amended chain at a concrete state — "宋体" resolves
to a non-empty name on a one-entry inventory. -/
theorem get_available_font_chain_witness :
    get_available_font
      { system_fonts := ["Arial"], font_mapping := base_font_mapping,
        reverse_mapping := [] } "宋体" "SimSun" ≠ "" := by
  exact (get_available_font_chain
    { system_fonts := ["Arial"], font_mapping := base_font_mapping, reverse_mapping := [] }
    "宋体" "SimSun").1 (by decide) (by decide) (by decide)

/-! ### Paragraph-block preservation lemmas -/

theorem applyAlignment_ls_rule (p : Paragraph) (f : JValue) :
    (applyAlignment p f).line_spacing_rule = p.line_spacing_rule := rfl

theorem applyAlignment_ls_pt (p : Paragraph) (f : JValue) :
    (applyAlignment p f).line_spacing_pt = p.line_spacing_pt := rfl

theorem applyAlignment_runs (p : Paragraph) (f : JValue) :
    (applyAlignment p f).runs = p.runs := rfl

theorem applyFirstLineIndent_ls_rule (p : Paragraph) (f t : JValue) :
    (applyFirstLineIndent p f t).line_spacing_rule = p.line_spacing_rule := by
  simp only [applyFirstLineIndent]
  repeat' split
  all_goals rfl

theorem applyFirstLineIndent_ls_pt (p : Paragraph) (f t : JValue) :
    (applyFirstLineIndent p f t).line_spacing_pt = p.line_spacing_pt := by
  simp only [applyFirstLineIndent]
  repeat' split
  all_goals rfl

theorem applyFirstLineIndent_runs (p : Paragraph) (f t : JValue) :
    (applyFirstLineIndent p f t).runs = p.runs := by
  simp only [applyFirstLineIndent]
  repeat' split
  all_goals rfl

theorem applySpaceBefore_ls_rule (p : Paragraph) (f : JValue) :
    (applySpaceBefore p f).line_spacing_rule = p.line_spacing_rule := by
  simp only [applySpaceBefore]
  repeat' split
  all_goals rfl

theorem applySpaceBefore_ls_pt (p : Paragraph) (f : JValue) :
    (applySpaceBefore p f).line_spacing_pt = p.line_spacing_pt := by
  simp only [applySpaceBefore]
  repeat' split
  all_goals rfl

theorem applySpaceBefore_runs (p : Paragraph) (f : JValue) :
    (applySpaceBefore p f).runs = p.runs := by
  simp only [applySpaceBefore]
  repeat' split
  all_goals rfl

theorem applySpaceAfter_ls_rule (p : Paragraph) (f : JValue) :
    (applySpaceAfter p f).line_spacing_rule = p.line_spacing_rule := by
  simp only [applySpaceAfter]
  repeat' split
  all_goals rfl

theorem applySpaceAfter_ls_pt (p : Paragraph) (f : JValue) :
    (applySpaceAfter p f).line_spacing_pt = p.line_spacing_pt := by
  simp only [applySpaceAfter]
  repeat' split
  all_goals rfl

theorem applySpaceAfter_runs (p : Paragraph) (f : JValue) :
    (applySpaceAfter p f).runs = p.runs := by
  simp only [applySpaceAfter]
  repeat' split
  all_goals rfl

theorem applyLineSpacing_runs (p : Paragraph) (f : JValue) :
    (applyLineSpacing p f).runs = p.runs := by
  simp only [applyLineSpacing]
  repeat' split
  all_goals rfl

theorem applyParagraphFormat_ls_rule (p : Paragraph) (f t : JValue) :
    (applyParagraphFormat p f t).line_spacing_rule = (applyLineSpacing p f).line_spacing_rule := by
  unfold applyParagraphFormat
  rw [applySpaceAfter_ls_rule, applySpaceBefore_ls_rule, applyFirstLineIndent_ls_rule,
    applyAlignment_ls_rule]

theorem applyParagraphFormat_ls_pt (p : Paragraph) (f t : JValue) :
    (applyParagraphFormat p f t).line_spacing_pt = (applyLineSpacing p f).line_spacing_pt := by
  unfold applyParagraphFormat
  rw [applySpaceAfter_ls_pt, applySpaceBefore_ls_pt, applyFirstLineIndent_ls_pt,
    applyAlignment_ls_pt]

theorem applyParagraphFormat_runs (p : Paragraph) (f t : JValue) :
    (applyParagraphFormat p f t).runs = p.runs := by
  unfold applyParagraphFormat
  rw [applySpaceAfter_runs, applySpaceBefore_runs, applyFirstLineIndent_runs,
    applyAlignment_runs, applyLineSpacing_runs]

theorem applyFont_text (fm : FontManagerState) (r : Run) (f : JValue) :
    (applyFont fm r f).text = r.text := by
  simp only [applyFont]
  repeat' split
  all_goals rfl

/-! ### C5: line-spacing resolution -/

/-- C5: for a numeric `line_spacing` value, exactly 1.0 maps to the
single rule, 1.5 to the one-and-a-half rule, 2.0 to the double rule; any
other numeric value inside [0.5, 36.0] maps to "exactly" mode at that
many points; any numeric value outside [0.5, 36.0] is replaced by the
default 1.5 (one-and-a-half rule) and the point value is not applied. -/
theorem line_spacing_resolution (para : Paragraph) (format_info element_type : JValue)
    (q : ℚ) (h : pyGetD format_info "line_spacing" (JValue.num (mkRat 3 2)) = JValue.num q) :
    (q = 1 → (applyParagraphFormat para format_info element_type).line_spacing_rule
      = some LineSpacingRule.single) ∧
    (q = mkRat 3 2 → (applyParagraphFormat para format_info element_type).line_spacing_rule
      = some LineSpacingRule.onePointFive) ∧
    (q = 2 → (applyParagraphFormat para format_info element_type).line_spacing_rule
      = some LineSpacingRule.double) ∧
    (mkRat 1 2 ≤ q → q ≤ 36 → q ≠ 1 → q ≠ mkRat 3 2 → q ≠ 2 →
      (applyParagraphFormat para format_info element_type).line_spacing_rule
        = some LineSpacingRule.exactlyRule ∧
      (applyParagraphFormat para format_info element_type).line_spacing_pt = some q) ∧
    ((q < mkRat 1 2 ∨ q > 36) →
      (applyParagraphFormat para format_info element_type).line_spacing_rule
        = some LineSpacingRule.onePointFive ∧
      (applyParagraphFormat para format_info element_type).line_spacing_pt
        = para.line_spacing_pt) := by
  refine ⟨?_, ?_, ?_, ?_, ?_⟩
  · intro hq
    subst hq
    rw [applyParagraphFormat_ls_rule]
    simp only [applyLineSpacing, h, jNum]
    norm_num
  · intro hq
    subst hq
    rw [applyParagraphFormat_ls_rule]
    simp only [applyLineSpacing, h, jNum]
    norm_num
  · intro hq
    subst hq
    rw [applyParagraphFormat_ls_rule]
    simp only [applyLineSpacing, h, jNum]
    norm_num
  · intro hlo hhi h1 h32 h2
    have hrange : ¬(q > 36 ∨ q < mkRat 1 2) := by
      push_neg
      exact ⟨hhi, hlo⟩
    constructor
    · rw [applyParagraphFormat_ls_rule]
      simp only [applyLineSpacing, h, jNum]
      rw [if_neg hrange, if_neg h1, if_neg h32, if_neg h2]
    · rw [applyParagraphFormat_ls_pt]
      simp only [applyLineSpacing, h, jNum]
      rw [if_neg hrange, if_neg h1, if_neg h32, if_neg h2]
  · intro hq
    have hrange : q > 36 ∨ q < mkRat 1 2 := hq.symm
    constructor
    · rw [applyParagraphFormat_ls_rule]
      simp only [applyLineSpacing, h, jNum]
      rw [if_pos hrange]
      norm_num
    · rw [applyParagraphFormat_ls_pt]
      simp only [applyLineSpacing, h, jNum]
      rw [if_pos hrange]
      norm_num

/-- C5 witness: a line spacing of 100.0 resolves to the one-and-a-half
rule rather than being applied. -/
theorem line_spacing_resolution_witness :
    (applyParagraphFormat (mkParagraph []) (JValue.obj [("line_spacing", JValue.num 100)])
      JValue.null).line_spacing_rule = some LineSpacingRule.onePointFive := by
  exact ((line_spacing_resolution (mkParagraph [])
    (JValue.obj [("line_spacing", JValue.num 100)]) JValue.null 100 rfl).2.2.2.2
    (Or.inr (by norm_num))).1

/-! ### C6: font-size resolution -/

/-- C6: string sizes are looked up in a table of exactly eight named
sizes whose point values span 7.5 to 18, with "五号" at 10.5pt and
"小二" at 18pt; a string outside the table resolves to the 10.5pt
default; a numeric size is used as-is; the resolved size is applied to
the paragraph's run. -/
theorem font_size_resolution :
    font_size_mapping.length = 8 ∧
    (∀ p ∈ font_size_mapping, mkRat 15 2 ≤ p.2 ∧ p.2 ≤ 18) ∧
    lookupFontSize "五号" = mkRat 21 2 ∧
    lookupFontSize "小二" = 18 ∧
    (∀ s, (∀ p ∈ font_size_mapping, p.1 ≠ s) → lookupFontSize s = mkRat 21 2) ∧
    (∀ fm run format_info fname s,
      pyGetD format_info "font" (JValue.str "宋体") = JValue.str fname →
      pyGetD format_info "size" (JValue.str "五号") = JValue.str s →
      (applyFont fm run format_info).size = some (RunSize.pt (lookupFontSize s))) ∧
    (∀ fm run format_info fname q,
      pyGetD format_info "font" (JValue.str "宋体") = JValue.str fname →
      pyGetD format_info "size" (JValue.str "五号") = JValue.num q →
      (applyFont fm run format_info).size = some (RunSize.raw (JValue.num q))) := by
  refine ⟨rfl, ?_, rfl, rfl, ?_, ?_, ?_⟩
  · intro p hp
    simp only [font_size_mapping, List.mem_cons, List.not_mem_nil, or_false] at hp
    rcases hp with h | h | h | h | h | h | h | h <;> subst h <;> norm_num
  · intro s hs
    have h1 : ¬ ((("小二" : String), (18 : ℚ)).1 = s) := hs ("小二", 18) (by simp [font_size_mapping])
    have h2 : ¬ ((("三号" : String), (16 : ℚ)).1 = s) := hs ("三号", 16) (by simp [font_size_mapping])
    have h3 : ¬ ((("小三" : String), (15 : ℚ)).1 = s) := hs ("小三", 15) (by simp [font_size_mapping])
    have h4 : ¬ ((("四号" : String), (14 : ℚ)).1 = s) := hs ("四号", 14) (by simp [font_size_mapping])
    have h5 : ¬ ((("小四" : String), (12 : ℚ)).1 = s) := hs ("小四", 12) (by simp [font_size_mapping])
    have h6 : ¬ ((("五号" : String), mkRat 21 2).1 = s) := hs ("五号", mkRat 21 2) (by simp [font_size_mapping])
    have h7 : ¬ ((("小五" : String), (9 : ℚ)).1 = s) := hs ("小五", 9) (by simp [font_size_mapping])
    have h8 : ¬ ((("六号" : String), mkRat 15 2).1 = s) := hs ("六号", mkRat 15 2) (by simp [font_size_mapping])
    simp only [lookupFontSize, font_size_mapping, List.foldl]
    simp only [] at h1 h2 h3 h4 h5 h6 h7 h8
    rw [if_neg h1, if_neg h2, if_neg h3, if_neg h4, if_neg h5, if_neg h6, if_neg h7, if_neg h8]
    rfl
  · intro fm run format_info fname s hfont hsize
    simp only [applyFont, hfont, hsize]
  · intro fm run format_info fname q hfont hsize
    simp only [applyFont, hfont, hsize]

/-- C6 witness: a concrete format whose size is the named token "五号"
yields a 10.5pt run size. -/
theorem font_size_resolution_witness :
    (applyFont { system_fonts := [], font_mapping := [], reverse_mapping := [] }
      (mkRun "x") (JValue.obj [("size", JValue.str "五号")])).size
      = some (RunSize.pt (mkRat 21 2)) := by
  have h := font_size_resolution
  have h6 := h.2.2.2.2.2.1
    { system_fonts := [], font_mapping := [], reverse_mapping := [] }
    (mkRun "x") (JValue.obj [("size", JValue.str "五号")]) "宋体" "五号" rfl rfl
  rw [h.2.2.1] at h6
  exact h6

/-! ### Extraction reduction helper -/

theorem parse_response_cases (d : String → Option JValue) (content : String) :
    (content = "" → parse_response d content = ParseResult.emptyContent) ∧
    (content ≠ "" → (pyFind content '\x7b' = -1 ∨ pyRfind content '\x7d' = -1) →
      parse_response d content = ParseResult.noPayload) ∧
    (∀ a b : Int, pyFind content '\x7b' = a → pyRfind content '\x7d' = b → 0 ≤ a → 0 ≤ b →
      d (pySlice content a.toNat (b.toNat + 1)) = none →
      parse_response d content = ParseResult.malformed
        (strTake (pySlice content a.toNat (b.toNat + 1)) 100)) ∧
    (∀ (a b : Int) (payload : JValue),
      pyFind content '\x7b' = a → pyRfind content '\x7d' = b → 0 ≤ a → 0 ≤ b →
      d (pySlice content a.toNat (b.toNat + 1)) = some payload →
      parse_response d content = decodedStep payload) := by
  refine ⟨?_, ?_, ?_, ?_⟩
  · intro h
    simp [parse_response, h]
  · intro hne hor
    have hcond : ¬(0 ≤ pyFind content '\x7b' ∧ 0 ≤ pyRfind content '\x7d') := by
      rcases hor with h | h
      · rw [h]
        rintro ⟨hc, -⟩
        norm_num at hc
      · rw [h]
        rintro ⟨-, hc⟩
        norm_num at hc
    simp only [parse_response]
    rw [if_neg hne, if_neg hcond]
  · intro a b ha hb ha0 hb0 hd
    have hne : content ≠ "" := by
      intro h
      subst h
      have hm1 : (-1 : Int) = a := by
        rw [← ha]
        rfl
      omega
    simp only [parse_response]
    rw [if_neg hne, ha, hb, if_pos ⟨ha0, hb0⟩, hd]
  · intro a b payload ha hb ha0 hb0 hd
    have hne : content ≠ "" := by
      intro h
      subst h
      have hm1 : (-1 : Int) = a := by
        rw [← ha]
        rfl
      omega
    simp only [parse_response]
    rw [if_neg hne, ha, hb, if_pos ⟨ha0, hb0⟩, hd]

/-! ### C3: payload extraction from the model response -/

/-- C3 counterexample: on the input consisting of a closing brace followed
by an opening brace, both delimiters are found with the first `'\x7b'` at
index 1 after the last `'\x7d'` at index 0, yet decoding is still
attempted — on the empty slice — and the result is the malformed-payload
error, not a no-payload error.  Moreover the empty input produces the
empty-content error, not the no-payload error. -/
theorem extraction_decodes_out_of_order :
    parse_response rejectAll "\x7d\x7b" = ParseResult.malformed "" ∧
    pyFind "\x7d\x7b" '\x7b' = 1 ∧
    pyRfind "\x7d\x7b" '\x7d' = 0 ∧
    parse_response rejectAll "" = ParseResult.emptyContent := by
  exact ⟨rfl, rfl, rfl, rfl⟩

/-- C3 (amended): extraction locates the first opening brace and the last
closing brace; the inclusive substring between them — possibly empty when
the first opening brace follows the last closing brace — is decoded
whenever both are found; on non-empty input with either delimiter absent
the result is the no-payload error (the empty input instead yields an
empty-content error); a slice that fails to decode yields the
malformed-payload error carrying the slice truncated to 100 characters. -/
theorem extraction_behaviour (d : String → Option JValue) (content : String) :
    (content = "" → parse_response d content = ParseResult.emptyContent) ∧
    (content ≠ "" → (pyFind content '\x7b' = -1 ∨ pyRfind content '\x7d' = -1) →
      parse_response d content = ParseResult.noPayload) ∧
    (∀ a b : Int, pyFind content '\x7b' = a → pyRfind content '\x7d' = b → 0 ≤ a → 0 ≤ b →
      d (pySlice content a.toNat (b.toNat + 1)) = none →
      parse_response d content = ParseResult.malformed
        (strTake (pySlice content a.toNat (b.toNat + 1)) 100)) ∧
    (∀ (a b : Int) (payload : JValue),
      pyFind content '\x7b' = a → pyRfind content '\x7d' = b → 0 ≤ a → 0 ≤ b →
      d (pySlice content a.toNat (b.toNat + 1)) = some payload →
      parse_response d content = decodedStep payload) :=
  parse_response_cases d content

/-- C3 witness: a brace-free non-empty input fails with the no-payload
error. -/
theorem extraction_behaviour_witness :
    parse_response rejectAll "no json here" = ParseResult.noPayload := by
  exact (extraction_behaviour rejectAll "no json here").2.1 (by decide) (Or.inl rfl)

/-! ### C4: instruction validation -/

theorem validateElements_all_good (es : List JValue) :
    ∀ n : Nat, (∀ e ∈ es, goodElem e = true) → validateElements es n = none := by
  induction es with
  | nil =>
    intro n _
    rfl
  | cons e rest ih =>
    intro n h
    have he := h e (List.mem_cons_self e rest)
    simp only [goodElem, Bool.and_eq_true] at he
    simp only [validateElements, he.1.1, he.1.2, he.2, if_true]
    exact ih (n + 1) (fun x hx => h x (List.mem_cons_of_mem e hx))

theorem validateElements_first_bad (es : List JValue) :
    ∀ (n i : Nat) (hi : i < es.length),
    (∀ e ∈ es.take i, goodElem e = true) → goodElem (es.get ⟨i, hi⟩) = false →
    validateElements es n = some (elementError (es.get ⟨i, hi⟩) (n + i)) := by
  induction es with
  | nil =>
    intro n i hi
    exact absurd hi (by simp)
  | cons e rest ih =>
    intro n i hi hgood hbad
    cases i with
    | zero =>
      have hget : (e :: rest).get ⟨0, hi⟩ = e := rfl
      rw [hget] at hbad ⊢
      rw [Nat.add_zero]
      cases hobj : isObj e with
      | false =>
        simp [validateElements, elementError, hobj]
      | true =>
        cases hcont : hasKey e "content" with
        | false =>
          simp [validateElements, elementError, hobj, hcont]
        | true =>
          cases hfmt : hasKey e "format" with
          | false =>
            simp [validateElements, elementError, hobj, hcont, hfmt]
          | true =>
            exfalso
            rw [goodElem, hobj, hcont, hfmt] at hbad
            simp at hbad
    | succ j =>
      have he : goodElem e = true := by
        refine hgood e ?_
        rw [List.take_succ_cons]
        exact List.mem_cons_self _ _
      have he' := he
      simp only [goodElem, Bool.and_eq_true] at he'
      have hj : j < rest.length := Nat.lt_of_succ_lt_succ hi
      have hget : (e :: rest).get ⟨j + 1, hi⟩ = rest.get ⟨j, hj⟩ := rfl
      rw [hget] at hbad ⊢
      simp only [validateElements, he'.1.1, he'.1.2, he'.2, if_true]
      have hres := ih (n + 1) j hj
        (fun x hx => hgood x (by rw [List.take_succ_cons]; exact List.mem_cons_of_mem _ hx))
        hbad
      rw [hres]
      rw [show n + 1 + j = n + (j + 1) from by omega]

/-- C4 counterexample: a decoded payload whose single element binds the
`content` and `format` keys to null passes validation unchanged: the code
checks key presence only, so a null `content` is surfaced to rendering
rather than rejected. -/
theorem validation_accepts_null_fields :
    parse_response nullFieldsDecoder "\x7b\x7d" = ParseResult.ok nullFieldsPayload := by
  rfl

/-- C4 (amended): on a decoded payload, `parse_response` fails when the
`elements` field is not a list, when a member of `elements` is not a
mapping (reporting the index), or when an element lacks the `content` or
`format` key (reporting index and field, in source order) — the first
failing element decides; elements whose `content` or `format` keys are
present (even with null values) pass, so validation guarantees key
presence, not non-null values. -/
theorem validation_behaviour (d : String → Option JValue) (content : String)
    (a b : Int) (kvs : List (String × JValue)) (v : JValue)
    (ha : pyFind content '\x7b' = a) (hb : pyRfind content '\x7d' = b)
    (ha0 : 0 ≤ a) (hb0 : 0 ≤ b)
    (hd : d (pySlice content a.toNat (b.toNat + 1)) = some (JValue.obj kvs))
    (hv : pyGetD (JValue.obj kvs) "elements" (JValue.arr []) = v) :
    (isArr v = false → parse_response d content = ParseResult.wrongShape) ∧
    (∀ es, v = JValue.arr es →
      ((∀ e ∈ es, goodElem e = true) →
        parse_response d content = ParseResult.ok (JValue.obj kvs)) ∧
      (∀ i (hi : i < es.length), (∀ e ∈ es.take i, goodElem e = true) →
        goodElem (es.get ⟨i, hi⟩) = false →
        parse_response d content = elementError (es.get ⟨i, hi⟩) i)) := by
  have hred := (parse_response_cases d content).2.2.2 a b (JValue.obj kvs) ha hb ha0 hb0 hd
  constructor
  · intro hna
    rw [hred]
    simp only [decodedStep]
    rw [hv]
    cases v with
    | arr es => simp [isArr] at hna
    | null => rfl
    | bool b' => rfl
    | num q => rfl
    | str s => rfl
    | obj kvs' => rfl
  · intro es hves
    subst hves
    have harr : decodedStep (JValue.obj kvs) = validationOutcome (JValue.obj kvs) es := by
      simp only [decodedStep]
      rw [hv]
      rfl
    constructor
    · intro hall
      rw [hred, harr]
      simp only [validationOutcome]
      rw [validateElements_all_good es 0 hall]
    · intro i hi hgood hbad
      rw [hred, harr]
      simp only [validationOutcome]
      rw [validateElements_first_bad es 0 i hi hgood hbad]
      rw [Nat.zero_add]

/-- C4 witness: a decoded payload whose `elements` field is a string is
rejected with the wrong-shape error. -/
theorem validation_behaviour_witness :
    parse_response strElementsDecoder "\x7bw\x7d" = ParseResult.wrongShape := by
  exact (validation_behaviour strElementsDecoder "\x7bw\x7d" 0 2
    [("elements", JValue.str "x")] (JValue.str "x") rfl rfl (by norm_num) (by norm_num)
    rfl rfl).1 rfl

/-! ### C2: paragraph-per-element fidelity with per-element isolation -/

theorem renderElement_good (fm : FontManagerState) (e : JValue) (s : String)
    (ho : isObj e = true) (hc : pyGetD e "content" (JValue.str "") = JValue.str s) :
    ∃ p, renderElement fm e = some p ∧ paraText p = s := by
  refine ⟨applyParagraphFormat
      (mkParagraph [applyFont fm (mkRun s)
        (if isObj (pyGetD e "format" (JValue.obj [])) = true
          then pyGetD e "format" (JValue.obj []) else JValue.obj [])])
      (if isObj (pyGetD e "format" (JValue.obj [])) = true
        then pyGetD e "format" (JValue.obj []) else JValue.obj [])
      (pyGetD e "type" (JValue.str "正文")), ?_, ?_⟩
  · simp only [renderElement, ho, if_true]
    rw [hc]
    rfl
  · rw [paraText, applyParagraphFormat_runs]
    show List.foldl _ "" [applyFont fm (mkRun s) _] = s
    rw [List.foldl_cons, List.foldl_nil, applyFont_text]
    exact str_nil_append s

theorem foldl_process_good (fm : FontManagerState) (es : List JValue) :
    ∀ doc : OutputDoc,
    (∀ e ∈ es, isObj e = true ∧ isStr (pyGetD e "content" (JValue.str "")) = true) →
    (es.foldl (process_element fm) doc).paragraphs.map paraText
      = doc.paragraphs.map paraText ++ es.map contentString := by
  induction es with
  | nil =>
    intro doc _
    simp
  | cons e rest ih =>
    intro doc h
    have he := h e (List.mem_cons_self e rest)
    obtain ⟨s, hs⟩ : ∃ s, pyGetD e "content" (JValue.str "") = JValue.str s := by
      cases hv : pyGetD e "content" (JValue.str "") with
      | str s => exact ⟨s, rfl⟩
      | null => rw [hv] at he; simp [isStr] at he
      | bool b => rw [hv] at he; simp [isStr] at he
      | num q => rw [hv] at he; simp [isStr] at he
      | arr xs => rw [hv] at he; simp [isStr] at he
      | obj kvs => rw [hv] at he; simp [isStr] at he
    obtain ⟨p, hp, hpt⟩ := renderElement_good fm e s he.1 hs
    rw [List.foldl_cons]
    rw [show process_element fm doc e = { paragraphs := doc.paragraphs ++ [p] } from by
      simp [process_element, hp]]
    rw [ih _ (fun x hx => h x (List.mem_cons_of_mem e hx))]
    have hcs : contentString e = s := by
      rw [contentString, hs]
    simp [List.map_append, hpt, hcs]

/-- C2: for a loaded document and a validated instruction set whose `N`
elements are mappings with string `content` and a `format` key (of any
value, well-formed or not), `apply_formatting` appends exactly `N`
paragraphs in element order with each paragraph's text equal to its
element's content — formatting failures are confined to the element —
and the run's success flag depends only on document construction and the
final save. -/
theorem renderer_paragraph_fidelity (fm : FontManagerState) (st : DocProcState)
    (instr : JValue) (custom : Option String) (dOk sOk : Bool)
    (kvs : List (String × JValue)) (es : List JValue)
    (hload : st.document_loaded = true)
    (hobj : instr = JValue.obj kvs)
    (hels : pyGetD instr "elements" (JValue.arr []) = JValue.arr es)
    (hgood : ∀ e ∈ es, isObj e = true ∧ isStr (pyGetD e "content" (JValue.str "")) = true ∧
      hasKey e "format" = true) :
    (dOk = true →
      (apply_formatting fm st instr custom dOk sOk).doc.paragraphs.length = es.length ∧
      (apply_formatting fm st instr custom dOk sOk).doc.paragraphs.map paraText
        = es.map contentString) ∧
    (apply_formatting fm st instr custom dOk sOk).success = (dOk && sOk) := by
  subst hobj
  have happ : apply_formatting fm st (JValue.obj kvs) custom dOk sOk =
      (if dOk = false then
        { success := false, doc := emptyDoc, writes := [backup_file st.input_file] }
      else
        { success := sOk, doc := es.foldl (process_element fm) emptyDoc,
          writes := [backup_file st.input_file]
            ++ [generate_output_filename st.input_file custom] }) := by
    simp only [apply_formatting, hload, isObj]
    rw [hels]
    norm_num
  have hfold := foldl_process_good fm es emptyDoc
    (fun e he => ⟨(hgood e he).1, (hgood e he).2.1⟩)
  constructor
  · intro hd
    subst hd
    rw [happ]
    simp only [if_neg (by decide : ¬ (true = false))]
    constructor
    · have : ((es.foldl (process_element fm) emptyDoc).paragraphs.map paraText).length
          = (es.map contentString).length := by rw [hfold]; rfl
      rw [List.length_map, List.length_map] at this
      exact this
    · exact hfold
  · cases dOk with
    | false => rw [happ]; rfl
    | true => rw [happ]; rfl

/-- C2 witness: a one-element instruction set renders to a one-paragraph
document and the run succeeds. -/
theorem renderer_paragraph_fidelity_witness :
    (apply_formatting { system_fonts := [], font_mapping := [], reverse_mapping := [] }
      { document_loaded := true, input_file := "a.docx" }
      (JValue.obj [("elements", JValue.arr
        [JValue.obj [("content", JValue.str "hi"), ("format", JValue.obj [])]])])
      none true true).doc.paragraphs.length = 1 ∧
    (apply_formatting { system_fonts := [], font_mapping := [], reverse_mapping := [] }
      { document_loaded := true, input_file := "a.docx" }
      (JValue.obj [("elements", JValue.arr
        [JValue.obj [("content", JValue.str "hi"), ("format", JValue.obj [])]])])
      none true true).success = true := by
  have h := renderer_paragraph_fidelity
    { system_fonts := [], font_mapping := [], reverse_mapping := [] }
    { document_loaded := true, input_file := "a.docx" }
    (JValue.obj [("elements", JValue.arr
      [JValue.obj [("content", JValue.str "hi"), ("format", JValue.obj [])]])])
    none true true
    [("elements", JValue.arr
      [JValue.obj [("content", JValue.str "hi"), ("format", JValue.obj [])]])]
    [JValue.obj [("content", JValue.str "hi"), ("format", JValue.obj [])]]
    rfl rfl rfl (by decide)
  exact ⟨(h.1 rfl).1, h.2⟩

/-! ### C1: the spec's worked example, end to end -/

/-- C1: rendering the decoded worked-example response produces a
2-paragraph document whose first paragraph carries the title text,
center-aligned, with an 18pt run, and whose second paragraph carries the
body text with a 10.5pt run, the default 21pt body first-line indent and
the one-and-a-half line-spacing rule. -/
theorem worked_example_rendering :
    c1_result.success = true ∧
    c1_result.doc.paragraphs.length = 2 ∧
    paraText (c1_result.doc.paragraphs.getD 0 (mkParagraph [])) = "标题文字" ∧
    paraText (c1_result.doc.paragraphs.getD 1 (mkParagraph [])) = "这是正文第一段。" ∧
    (c1_result.doc.paragraphs.getD 0 (mkParagraph [])).alignment
      = some ParaAlignment.center ∧
    ((c1_result.doc.paragraphs.getD 0 (mkParagraph [])).runs.getD 0 (mkRun "")).size
      = some (RunSize.pt 18) ∧
    ((c1_result.doc.paragraphs.getD 1 (mkParagraph [])).runs.getD 0 (mkRun "")).size
      = some (RunSize.pt (mkRat 21 2)) ∧
    (c1_result.doc.paragraphs.getD 1 (mkParagraph [])).first_line_indent = some 21 ∧
    (c1_result.doc.paragraphs.getD 1 (mkParagraph [])).line_spacing_rule
      = some LineSpacingRule.onePointFive :=
  ⟨rfl, rfl, rfl, rfl, rfl, rfl, rfl, rfl, rfl⟩

/-! ### C8: the source file is never written -/

theorem pyReplaceAux_length_ge (pat rep : List Char) (hlen : pat.length ≤ rep.length) :
    ∀ (fuel : Nat) (s : List Char), s.length ≤ (pyReplaceAux pat rep fuel s).length := by
  intro fuel
  induction fuel with
  | zero =>
    intro s
    cases s with
    | nil => simp [pyReplaceAux]
    | cons c rest => simp [pyReplaceAux]
  | succ n ih =>
    intro s
    cases s with
    | nil => simp [pyReplaceAux]
    | cons c rest =>
      simp only [pyReplaceAux]
      split
      · next hcond =>
        have hpre : pat <+: (c :: rest) := (List.isPrefixOf_iff_prefix).mp hcond.2
        have hple : pat.length ≤ (c :: rest).length := hpre.length_le
        rw [List.length_append]
        have hrec := ih ((c :: rest).drop pat.length)
        rw [List.length_drop] at hrec
        simp only [List.length_cons] at hple hrec ⊢
        omega
      · have hrec := ih rest
        simp only [List.length_cons]
        omega

theorem pyReplaceAux_length_gt (pat rep : List Char) (hne : pat ≠ [])
    (hlen : pat.length < rep.length) :
    ∀ (fuel : Nat) (s : List Char), s.length ≤ fuel → pat.isSuffixOf s →
      s.length < (pyReplaceAux pat rep fuel s).length := by
  intro fuel
  induction fuel with
  | zero =>
    intro s hs hsuf
    have hnil : s = [] := List.length_eq_zero.mp (Nat.le_zero.mp hs)
    subst hnil
    have : pat <:+ ([] : List Char) := List.isSuffixOf_iff_suffix.mp hsuf
    exact absurd (List.suffix_nil.mp this) hne
  | succ n ih =>
    intro s hs hsuf
    cases s with
    | nil =>
      have : pat <:+ ([] : List Char) := List.isSuffixOf_iff_suffix.mp hsuf
      exact absurd (List.suffix_nil.mp this) hne
    | cons c rest =>
      simp only [pyReplaceAux]
      split
      · next hcond =>
        have hpre : pat <+: (c :: rest) := (List.isPrefixOf_iff_prefix).mp hcond.2
        have hple : pat.length ≤ (c :: rest).length := hpre.length_le
        rw [List.length_append]
        have hrec := pyReplaceAux_length_ge pat rep (Nat.le_of_lt hlen) n
          ((c :: rest).drop pat.length)
        rw [List.length_drop] at hrec
        simp only [List.length_cons] at hple hrec ⊢
        omega
      · next hcond =>
        have hnp : ¬ pat.isPrefixOf (c :: rest) = true := fun hp => hcond ⟨hne, hp⟩
        have hsufP : pat <:+ (c :: rest) := List.isSuffixOf_iff_suffix.mp hsuf
        have hsufR : pat <:+ rest := by
          rcases List.suffix_cons_iff.mp hsufP with h | h
          · exfalso
            apply hnp
            rw [h]
            exact List.isPrefixOf_iff_prefix.mpr (List.prefix_refl _)
          · exact h
        have hlenR : rest.length ≤ n := by
          simp only [List.length_cons] at hs
          omega
        have hrec := ih rest hlenR (List.isSuffixOf_iff_suffix.mpr hsufR)
        simp only [List.length_cons]
        omega

theorem pyReplaceAux_no_slash (pat rep : List Char) (hrep : ∀ c ∈ rep, c ≠ '/') :
    ∀ (fuel : Nat) (s : List Char), (∀ c ∈ s, c ≠ '/') →
      ∀ c ∈ pyReplaceAux pat rep fuel s, c ≠ '/' := by
  intro fuel
  induction fuel with
  | zero =>
    intro s hs
    cases s with
    | nil => simp [pyReplaceAux]
    | cons c rest => simpa [pyReplaceAux] using hs
  | succ n ih =>
    intro s hs
    cases s with
    | nil => simp [pyReplaceAux]
    | cons a rest =>
      simp only [pyReplaceAux]
      split
      · intro c hc
        rcases List.mem_append.mp hc with h | h
        · exact hrep c h
        · exact ih _ (fun x hx => hs x (List.mem_of_mem_drop hx)) c h
      · intro c hc
        rcases List.mem_cons.mp hc with h | h
        · subst h
          exact hs c (List.mem_cons_self c rest)
        · exact ih rest (fun x hx => hs x (List.mem_cons_of_mem _ hx)) c h

theorem takeWhile_append_of_all (p : Char → Bool) (u : List Char) (v : Char) (w : List Char)
    (hu : ∀ x ∈ u, p x = true) (hv : p v = false) :
    (u ++ v :: w).takeWhile p = u := by
  induction u with
  | nil => simp [List.takeWhile_cons, hv]
  | cons a u ih =>
    have ha := hu a (List.mem_cons_self a u)
    simp [List.takeWhile_cons, ha, ih (fun x hx => hu x (List.mem_cons_of_mem _ hx))]

theorem prefix_takeWhile (p : Char → Bool) :
    ∀ (a l : List Char), a <+: l → (∀ x ∈ a, p x = true) → a <+: l.takeWhile p := by
  intro a
  induction a with
  | nil =>
    intro l _ _
    exact List.nil_prefix
  | cons x a ih =>
    intro l hpre hall
    cases l with
    | nil =>
      have := List.prefix_nil.mp hpre
      simp at this
    | cons y l =>
      rcases List.cons_prefix_cons.mp hpre with ⟨hxy, ha⟩
      subst hxy
      rw [List.takeWhile_cons, if_pos (hall x (List.mem_cons_self x a))]
      exact List.cons_prefix_cons.mpr
        ⟨rfl, ih l ha (fun z hz => hall z (List.mem_cons_of_mem _ hz))⟩

theorem lastRun_no_slash (l : List Char) : ∀ c ∈ lastRun l, c ≠ '/' := by
  intro c hc
  have hm := List.mem_reverse.mp hc
  have := List.mem_takeWhile_imp hm
  simpa using this

theorem lastRun_append (d r : List Char) (hr : ∀ c ∈ r, c ≠ '/') :
    lastRun (d ++ '/' :: r) = r := by
  rw [lastRun, List.reverse_append, List.reverse_cons, List.append_assoc,
    List.singleton_append]
  rw [takeWhile_append_of_all _ r.reverse '/' d.reverse
    (fun x hx => by simpa using hr x (List.mem_reverse.mp hx)) (by simp)]
  rw [List.reverse_reverse]

theorem suffix_lastRun (pat l : List Char) (hp : ∀ c ∈ pat, c ≠ '/') (hs : pat <:+ l) :
    pat <:+ lastRun l := by
  have hpre : pat.reverse <+: l.reverse.takeWhile (fun c => c != '/') :=
    prefix_takeWhile _ pat.reverse l.reverse (by rw [List.reverse_prefix]; exact hs)
      (fun x hx => by simpa using hp x (List.mem_reverse.mp hx))
  rw [lastRun, ← List.reverse_prefix, List.reverse_reverse]
  exact hpre

theorem backup_file_ne (s : String) : backup_file s ≠ s := by
  intro h
  have hlen := congrArg (fun t => t.data.length) h
  simp only [backup_file, str_data_append, List.length_append] at hlen
  have h4 : (".bak" : String).data.length = 4 := rfl
  rw [h4] at hlen
  omega

theorem pyReplace_docx_longer (s : String) (hdocx : strEndsWith s ".docx" = true) :
    s.data.length < (pyReplace s ".docx" "_已排版.docx").data.length := by
  have h := pyReplaceAux_length_gt (".docx").data ("_已排版.docx").data
    (by decide) (by decide) s.data.length s.data (Nat.le_refl _) hdocx
  exact h

theorem basename_endsWith_docx (s : String) (hdocx : strEndsWith s ".docx" = true) :
    strEndsWith (basename s) ".docx" = true := by
  have hsuf : (".docx").data <:+ s.data := List.isSuffixOf_iff_suffix.mp hdocx
  have hfree : ∀ c ∈ (".docx").data, c ≠ '/' := by decide
  have := suffix_lastRun (".docx").data s.data hfree hsuf
  exact List.isSuffixOf_iff_suffix.mpr this

theorem generate_output_filename_ne (input : String) (custom : Option String)
    (hdocx : strEndsWith input ".docx" = true) :
    generate_output_filename input custom ≠ input := by
  cases custom with
  | none =>
    intro h
    have hlen := congrArg (fun t => t.data.length) h
    simp only [generate_output_filename] at hlen
    have := pyReplace_docx_longer input hdocx
    omega
  | some dir =>
    intro h
    have hrfree : ∀ c ∈ (pyReplace (basename input) ".docx" "_已排版.docx").data, c ≠ '/' := by
      intro c hc
      refine pyReplaceAux_no_slash (".docx").data ("_已排版.docx").data (by decide)
        (basename input).data.length (basename input).data ?_ c hc
      intro x hx
      exact lastRun_no_slash input.data x hx
    have hdata : (generate_output_filename input (some dir)).data
        = dir.data ++ '/' :: (pyReplace (basename input) ".docx" "_已排版.docx").data := by
      simp only [generate_output_filename, str_data_append]
      rw [List.append_assoc]
      rfl
    have hlast : lastRun (generate_output_filename input (some dir)).data
        = (pyReplace (basename input) ".docx" "_已排版.docx").data := by
      rw [hdata]
      exact lastRun_append dir.data _ hrfree
    have hinlast : lastRun input.data = (basename input).data := rfl
    have heq : (pyReplace (basename input) ".docx" "_已排版.docx").data
        = (basename input).data := by
      rw [← hlast, ← hinlast, h]
    have hlonger := pyReplace_docx_longer (basename input) (basename_endsWith_docx input hdocx)
    have := congrArg List.length heq
    omega

/-- C8: regardless of how a run of `apply_formatting` terminates, the
source document path is never among the paths it writes: the backup copy
goes to a distinct path and the rendered document is saved to a path
derived from the source name with a suffix inserted (or placed under the
override directory), never the source itself. -/
theorem source_never_written (fm : FontManagerState) (st : DocProcState)
    (instr : JValue) (custom : Option String) (dOk sOk : Bool)
    (hdocx : strEndsWith st.input_file ".docx" = true) :
    st.input_file ∉ (apply_formatting fm st instr custom dOk sOk).writes := by
  have hbak : st.input_file ≠ backup_file st.input_file :=
    fun h => backup_file_ne st.input_file h.symm
  have hout : st.input_file ≠ generate_output_filename st.input_file custom :=
    fun h => generate_output_filename_ne st.input_file custom hdocx h.symm
  simp only [apply_formatting]
  split
  · simp
  · split
    · simp
    · split
      · split
        · intro hmem
          rcases List.mem_singleton.mp hmem with h
          exact hbak h
        · intro hmem
          rcases List.mem_append.mp hmem with h | h
          · exact hbak (List.mem_singleton.mp h)
          · exact hout (List.mem_singleton.mp h)
      · simp

/-- C8 witness: a concrete run on a `.docx` source never writes the
source path. -/
theorem source_never_written_witness :
    "a.docx" ∉ (apply_formatting
      { system_fonts := [], font_mapping := [], reverse_mapping := [] }
      { document_loaded := true, input_file := "a.docx" }
      (JValue.obj []) none true true).writes := by
  exact source_never_written
    { system_fonts := [], font_mapping := [], reverse_mapping := [] }
    { document_loaded := true, input_file := "a.docx" }
    (JValue.obj []) none true true (by decide)
